import Mathlib

/-!
Verification of `classification/imagenet/onnx_to_tensorrt.py`.

The script's own logic is embedded shallowly:

* `get_batch_sizes` and `create_optimization_profile` are the two pure
  helpers, translated directly from the Python source.
* `main` is modelled as a function from a parsed argument record (`Args`)
  and an environment record (`Env`, the facts the script observes about
  the file system, the ONNX parser and the network) to the list of
  observable effects it performs (`Event`) together with how the process
  ends (`Outcome`).

Python integers are `ℤ`.  `int(math.log2 n)` truncates the base-2
logarithm towards zero; for a positive integer argument this is the floor
base-2 logarithm (`Nat.log2`), and for `n ≤ 0` the call raises
`ValueError: math domain error`, modelled by returning `none`.
-/

namespace OnnxToTensorrt

/-- A tensor shape: a Python tuple of integer dimensions, `-1` being the
dynamic-dimension wildcard. -/
abbrev Shape := List ℤ

/-- Fuel-driven floor base-2 logarithm: `log2Aux fuel n` halves `n` until it
drops below 2, counting the steps.  Structural in the fuel, and hence
evaluable by kernel reduction, unlike `Nat.log2`. -/
def log2Aux : ℕ → ℕ → ℕ
  | 0, _ => 0
  | fuel + 1, n => if 2 ≤ n then log2Aux fuel (n / 2) + 1 else 0

/-- `int(math.log2 n)` for a positive integer `n`: the floor base-2
logarithm.  `n` itself is always enough fuel. -/
def floorLog2 (n : ℕ) : ℕ := log2Aux n n

/-- `get_batch_sizes(max_batch_size)` (lines 34-39 of the source):
`max_exponent = int(math.log2(max_batch_size))`, then the set
`{2**i for i in range(max_exponent+1)}` with `max_batch_size` added.
`math.log2` raises on a non-positive argument (`none`). -/
def get_batch_sizes (max_batch_size : ℤ) : Option (Finset ℤ) :=
  if max_batch_size ≤ 0 then none
  else
    let max_exponent := floorLog2 max_batch_size.toNat
    some (insert max_batch_size
      ((Finset.range (max_exponent + 1)).image (fun i => (2 : ℤ) ^ i)))

/-- Spec-side description of the batch-size set, following the spec's words:
"the set of powers of two from 1 up to (and including) the largest power of
two not exceeding the maximum, plus the maximum itself".  Exponents are
drawn from a range that is provably large enough (`2 ^ i ≤ n → i < n+1`)
and filtered by the bound itself. -/
def batchSizesSpec (n : ℤ) : Finset ℤ :=
  insert n
    (((Finset.range (n.toNat + 1)).image (fun i => (2 : ℤ) ^ i)).filter
      (fun m => m ≤ n))

/-- The min/opt/max shape triple registered by one optimization profile. -/
structure OptProfile where
  min : Shape
  opt : Shape
  max : Shape
deriving DecidableEq, Repr, Inhabited

/-- `create_optimization_profile` (lines 42-63), projected to the data it
registers: the profile's `set_shape` triple.  `batch_size = none` models the
Python default `batch_size=None`, in which case the batch is read from
`input_shape[0]` (an `IndexError`, i.e. `none`, on an empty shape); with an
explicit batch size, a leading `-1` is replaced by it ("dynamic explicit
batch") and any other shape is used whole ("implicit batch"). -/
def create_optimization_profile (input_shape : Shape) (batch_size : Option ℤ) :
    Option OptProfile :=
  match input_shape, batch_size with
  | [], _ => none
  | d :: rest, none =>
      some { min := d :: rest, opt := d :: rest, max := d :: rest }
  | d :: rest, some b =>
      if d = -1 then
        some { min := b :: rest, opt := b :: rest, max := b :: rest }
      else
        some { min := b :: d :: rest, opt := b :: d :: rest, max := b :: d :: rest }

/-- Insertion sort lifted to a multiset of integers: well defined because
any two permutations of a list have the same sorted list.  Unlike
`Multiset.sort`, this evaluates by kernel reduction. -/
def sortedMS (m : Multiset ℤ) : List ℤ :=
  Quot.liftOn m (fun l => l.insertionSort (· ≤ ·)) fun l₁ l₂ h =>
    List.eq_of_perm_of_sorted
      ((List.perm_insertionSort _ l₁).trans (h.trans (List.perm_insertionSort _ l₂).symm))
      (List.sorted_insertionSort _ l₁) (List.sorted_insertionSort _ l₂)

/-- Python's `sorted` on a set of integers: the ascending list of its
elements. -/
def sortedList (s : Finset ℤ) : List ℤ := sortedMS s.val

/-- TensorRT logger severities the script selects between (lines 84-91). -/
inductive Severity where
  | error
  | info
  | verbose
deriving DecidableEq, Repr

/-- The parsed CLI arguments (`args` after `parser.parse_known_args()`),
one field per flag the script declares.  `verbosity` is the count of `-v`
occurrences (`none` when absent). -/
structure Args where
  onnx : String
  output : String
  max_batch_size : ℤ
  verbosity : Option ℕ
  explicit_batch : Bool
  fp16 : Bool
  int8 : Bool
  calibration_cache : String
  calibration_data : Option String
  calibration_batch_size : ℤ
  max_calibration_size : ℤ
  preprocess_func : Option String
deriving DecidableEq, Repr

/-- What the script observes from its surroundings during one run:
whether `os.path.exists(args.calibration_cache)` holds, what
`get_calibration_files` returns, whether `parser.parse` succeeds, the
parser's recorded errors, whether `network.get_output(0)` is truthy after
parsing, and the network's first input name and shape. -/
structure Env where
  cacheExists : Bool
  calibFiles : List String
  parseOk : Bool
  parserErrors : List String
  outputMarked : Bool
  inputName : String
  inputShape : Shape
deriving DecidableEq, Repr

/-- The observable effects `main` performs, in program order: calls into
the TensorRT SDK, the external calibration-file scan, stdout prints, and
the final engine write. -/
inductive Event where
  | setLoggerSeverity (sev : Severity)
  | builderCreate
  | networkCreate (flags : ℕ)
  | configCreate
  | parserCreate
  | setMaxBatchSize (n : ℤ)
  | setMaxWorkspaceSize (n : ℕ)
  | setFlagFP16
  | setFlagINT8
  | scanCalibrationDir (dir : String) (cap : ℤ)
  | setInt8Calibrator (files : List String) (batchSize : ℤ) (cacheFile : String)
      (preprocess : String)
  | parseOnnx (path : String)
  | printLine (s : String)
  | markLastLayerOutput
  | addProfile (inputName : String) (p : OptProfile)
  | buildEngine
  | writeEngine (path : String)
deriving DecidableEq, Repr

/-- Which events are calls into the external TensorRT SDK.  Printing to
stdout is plain I/O; `scanCalibrationDir` is the local helper module
(`get_calibration_files`); writing the engine file is plain file I/O. -/
def Event.isSDKCall : Event → Bool
  | .printLine _ => false
  | .scanCalibrationDir _ _ => false
  | .writeEngine _ => false
  | _ => true

/-- How the process ends: an uncaught Python exception, an explicit
`sys.exit`, or falling off the end of `main` (process status 0). -/
inductive Outcome where
  | raised (msg : String)
  | exited (code : ℕ)
  | finished
deriving DecidableEq, Repr

/-- The `ValueError` message raised at line 123. -/
def valErrMsg : String :=
  "ERROR: Int8 mode requested, but no calibration data provided. Please provide --calibration-data /path/to/calibration/files"

/-- The diagnostic header printed at line 140 on parse failure. -/
def parseFailMsg (path : String) : String :=
  "ERROR: Failed to parse the ONNX file: " ++ path

/-- What Python raises when `input_shape[0]` is read from an empty tuple. -/
def indexErrMsg : String := "IndexError: tuple index out of range"

/-- What `math.log2` raises on a non-positive argument. -/
def domainErrMsg : String := "ValueError: math domain error"

/-- `trt.NetworkDefinitionCreationFlag.EXPLICIT_BATCH` is bit 0. -/
def explicitBatchBit : ℕ := 0

/-- Lines 84-91: severity selected from the `-v` count. -/
def severityOf : Option ℕ → Severity
  | none => .error
  | some 1 => .info
  | some _ => .verbose

/-- Lines 127-132: the preprocessing function name handed to the
calibrator, defaulting to `preprocess_imagenet`. -/
def preprocessName (args : Args) : String :=
  args.preprocess_func.getD "preprocess_imagenet"

/-- Lines 166-169: build the engine and write it to `args.output`. -/
def buildStep (args : Args) (tr : List Event) : List Event × Outcome :=
  (tr ++ [.buildEngine, .writeEngine args.output], .finished)

/-- Lines 150-164: under `--explicit-batch`, read the first input's shape;
a leading `-1` yields one profile per sorted batch size from
`get_batch_sizes` (a non-positive max batch size makes `math.log2` raise),
a fixed leading dimension yields a single profile.  The
`create_optimization_profile` calls never return `none` here because the
shape passed is non-empty, so `getD default` is never taken. -/
def profileStep (args : Args) (env : Env) (tr : List Event) : List Event × Outcome :=
  if args.explicit_batch then
    match env.inputShape with
    | [] => (tr, .raised indexErrMsg)
    | d :: rest =>
      if d = -1 then
        match get_batch_sizes args.max_batch_size with
        | none => (tr, .raised domainErrMsg)
        | some sizes =>
            buildStep args (tr ++ (sortedList sizes).map fun b =>
              Event.addProfile env.inputName
                ((create_optimization_profile (d :: rest) (some b)).getD default))
      else
        buildStep args (tr ++ [Event.addProfile env.inputName
          ((create_optimization_profile (d :: rest) none).getD default)])
  else buildStep args tr

/-- Lines 145-148: mark the last layer's first output as the network
output when none is marked. -/
def markStep (args : Args) (env : Env) (tr : List Event) : List Event × Outcome :=
  profileStep args env (if env.outputMarked then tr else tr ++ [.markLastLayerOutput])

/-- Lines 138-143: parse the ONNX bytes; on failure print a header plus
one line per parser error and `sys.exit(1)`. -/
def parseStep (args : Args) (env : Env) (tr : List Event) : List Event × Outcome :=
  let tr := tr ++ [.parseOnnx args.onnx]
  if env.parseOk then markStep args env tr
  else (tr ++ (Event.printLine (parseFailMsg args.onnx) ::
                env.parserErrors.map Event.printLine), .exited 1)

/-- Lines 112-135: under `--int8`, set the INT8 flag, choose calibration
files (none when the cache file exists; otherwise scan the data directory,
raising `ValueError` when no directory was given) and install the
calibrator. -/
def calibStep (args : Args) (env : Env) (tr : List Event) : List Event × Outcome :=
  if args.int8 then
    let tr := tr ++ [.setFlagINT8]
    if env.cacheExists then
      parseStep args env (tr ++ [.setInt8Calibrator [] args.calibration_batch_size
        args.calibration_cache (preprocessName args)])
    else
      match args.calibration_data with
      | none => (tr, .raised valErrMsg)
      | some dir =>
          parseStep args env (tr ++
            [.scanCalibrationDir dir args.max_calibration_size,
             .setInt8Calibrator env.calibFiles args.calibration_batch_size
               args.calibration_cache (preprocessName args)])
  else parseStep args env tr

/-- Lines 84-110: logger severity, the builder/network/config/parser
session, `max_batch_size`, workspace size and the optional FP16 flag. -/
def setupEvents (args : Args) : List Event :=
  [.setLoggerSeverity (severityOf args.verbosity), .builderCreate,
   .networkCreate (if args.explicit_batch then 1 <<< explicitBatchBit else 0),
   .configCreate, .parserCreate, .setMaxBatchSize args.max_batch_size,
   .setMaxWorkspaceSize (2 ^ 30)]
  ++ (if args.fp16 then [.setFlagFP16] else [])

/-- `main()` of `onnx_to_tensorrt.py`, as the sequence of effects it
performs and how the process ends. -/
def main (args : Args) (env : Env) : List Event × Outcome :=
  calibStep args env (setupEvents args)

/-- Recognizer for stdout print events. -/
def Event.isPrintLine : Event → Bool
  | .printLine _ => true
  | _ => false

/-- Recognizer for profile-registration events. -/
def Event.isAddProfile : Event → Bool
  | .addProfile _ _ => true
  | _ => false

/-- Recognizer for the engine-build call. -/
def Event.isBuildEngine : Event → Bool
  | .buildEngine => true
  | _ => false

/-- Recognizer for the engine-file write. -/
def Event.isWriteEngine : Event → Bool
  | .writeEngine _ => true
  | _ => false

/-- Recognizer for the ONNX parse call. -/
def Event.isParseOnnx : Event → Bool
  | .parseOnnx _ => true
  | _ => false

/-- Recognizer for the calibration-directory scan. -/
def Event.isScanCalibrationDir : Event → Bool
  | .scanCalibrationDir _ _ => true
  | _ => false

/-- The events the INT8 block (lines 112-135) contributes when it does not
raise: nothing without `--int8`; otherwise the INT8 flag, the optional
directory scan, and the calibrator installation. -/
def calibTrace (args : Args) (env : Env) : List Event :=
  if args.int8 then
    Event.setFlagINT8 ::
      (if env.cacheExists then
        [.setInt8Calibrator [] args.calibration_batch_size args.calibration_cache
          (preprocessName args)]
      else
        match args.calibration_data with
        | none => []
        | some dir =>
            [.scanCalibrationDir dir args.max_calibration_size,
             .setInt8Calibrator env.calibFiles args.calibration_batch_size
               args.calibration_cache (preprocessName args)])
  else []

/-- A concrete run configuration: `--int8` with no calibration data. -/
def int8NoDataArgs : Args :=
  { onnx := "model.onnx", output := "model.engine", max_batch_size := 32,
    verbosity := none, explicit_batch := false, fp16 := false, int8 := true,
    calibration_cache := "calibration.cache", calibration_data := none,
    calibration_batch_size := 32, max_calibration_size := 512,
    preprocess_func := none }

/-- A concrete environment: no calibration cache on disk, a parse that
would succeed on a dynamically shaped single-input network. -/
def int8NoDataEnv : Env :=
  { cacheExists := false, calibFiles := [], parseOk := true, parserErrors := [],
    outputMarked := true, inputName := "input", inputShape := [-1, 3, 224, 224] }

/-- A concrete run configuration: `--explicit-batch -b 0` (a max batch
size of `0`), no INT8. -/
def zeroBatchArgs : Args :=
  { onnx := "model.onnx", output := "model.engine", max_batch_size := 0,
    verbosity := none, explicit_batch := true, fp16 := false, int8 := false,
    calibration_cache := "calibration.cache", calibration_data := none,
    calibration_batch_size := 32, max_calibration_size := 512,
    preprocess_func := none }

/-- A concrete run configuration: `--explicit-batch -b 20`, no INT8. -/
def dynProfileArgs : Args :=
  { zeroBatchArgs with max_batch_size := 20 }

/-- A concrete environment in which the calibration cache file exists. -/
def cacheEnv : Env :=
  { int8NoDataEnv with cacheExists := true }

/-- A concrete environment in which the ONNX parse fails with two
recorded parser errors. -/
def failEnv : Env :=
  { int8NoDataEnv with
      parseOk := false,
      parserErrors := ["parse error one", "parse error two"] }

end OnnxToTensorrt

namespace OnnxToTensorrt

/-! ### Helper lemmas about the batch-size enumerator -/

theorem log2Aux_eq (fuel n : ℕ) (h : n ≤ fuel) : log2Aux fuel n = Nat.log2 n := by
  induction fuel generalizing n with
  | zero =>
      have : n = 0 := by omega
      subst this
      simp [log2Aux, Nat.log2]
  | succ fuel ih =>
      rw [log2Aux, Nat.log2]
      by_cases h2 : 2 ≤ n
      · rw [if_pos h2, if_pos h2, ih _ (by omega)]
      · rw [if_neg h2, if_neg h2]

theorem floorLog2_eq (n : ℕ) : floorLog2 n = Nat.log2 n := log2Aux_eq n n le_rfl

theorem get_batch_sizes_neg {n : ℤ} (h : n ≤ 0) : get_batch_sizes n = none := by
  rw [get_batch_sizes, if_pos h]

theorem get_batch_sizes_pos {n : ℤ} (h : 0 < n) :
    get_batch_sizes n =
      some (insert n
        ((Finset.range (Nat.log2 n.toNat + 1)).image fun i => (2 : ℤ) ^ i)) := by
  rw [get_batch_sizes, if_neg (by omega)]
  simp [floorLog2_eq]

theorem two_pow_le_iff {n : ℤ} (h : 0 < n) (i : ℕ) :
    (2 : ℤ) ^ i ≤ n ↔ i ≤ Nat.log2 n.toNat := by
  rw [Nat.log2_eq_log_two, ← Nat.pow_le_iff_le_log one_lt_two (by omega : n.toNat ≠ 0),
    Int.le_toNat h.le]
  push_cast
  rfl

theorem mem_get_batch_sizes {n : ℤ} (h : 0 < n) {m : ℤ} :
    m ∈ insert n ((Finset.range (Nat.log2 n.toNat + 1)).image fun i => (2 : ℤ) ^ i) ↔
      (∃ i : ℕ, m = 2 ^ i ∧ m ≤ n) ∨ m = n := by
  simp only [Finset.mem_insert, Finset.mem_image, Finset.mem_range]
  constructor
  · rintro (rfl | ⟨i, hi, rfl⟩)
    · exact Or.inr rfl
    · exact Or.inl ⟨i, rfl, (two_pow_le_iff h i).mpr (by omega)⟩
  · rintro (⟨i, rfl, hle⟩ | rfl)
    · have hil : i ≤ Nat.log2 n.toNat := (two_pow_le_iff h i).mp hle
      have : Nat.log2 n.toNat ≤ n.toNat := by
        rw [Nat.log2_eq_log_two]; exact Nat.log_le_self 2 n.toNat
      exact Or.inr ⟨i, by omega, rfl⟩
    · exact Or.inl rfl

/-! ### Helper lemmas about `sortedList` -/

theorem sortedMS_coe (m : Multiset ℤ) : (sortedMS m : Multiset ℤ) = m := by
  induction m using Quot.inductionOn with
  | h l => exact Quot.sound (List.perm_insertionSort _ l)

theorem sortedMS_sorted (m : Multiset ℤ) : List.Sorted (· ≤ ·) (sortedMS m) := by
  induction m using Quot.inductionOn with
  | h l => exact List.sorted_insertionSort _ l

theorem mem_sortedList {s : Finset ℤ} {b : ℤ} : b ∈ sortedList s ↔ b ∈ s := by
  rw [Finset.mem_def, ← sortedMS_coe s.val, Multiset.mem_coe]
  exact Iff.rfl

theorem sortedList_nodup (s : Finset ℤ) : (sortedList s).Nodup := by
  rw [← Multiset.coe_nodup, sortedList, sortedMS_coe]
  exact s.nodup

theorem sortedList_sorted (s : Finset ℤ) : List.Sorted (· ≤ ·) (sortedList s) :=
  sortedMS_sorted s.val

theorem sortedList_pairwise_lt (s : Finset ℤ) :
    List.Pairwise (· < ·) (sortedList s) :=
  (List.Pairwise.and (sortedList_sorted s) (sortedList_nodup s)).imp
    fun h => lt_of_le_of_ne h.1 h.2

end OnnxToTensorrt

namespace OnnxToTensorrt

/-! ### Helper lemmas about the trace model -/

theorem cop_dynamic_getD (rest : Shape) (b : ℤ) :
    (create_optimization_profile (-1 :: rest) (some b)).getD default =
      { min := b :: rest, opt := b :: rest, max := b :: rest } := by
  simp [create_optimization_profile]

theorem cop_none_getD (d : ℤ) (rest : Shape) :
    (create_optimization_profile (d :: rest) none).getD default =
      { min := d :: rest, opt := d :: rest, max := d :: rest } := rfl

theorem calibStep_eq (args : Args) (env : Env) (tr : List Event)
    (hreach : args.int8 = true → env.cacheExists = true ∨ args.calibration_data ≠ none) :
    calibStep args env tr = parseStep args env (tr ++ calibTrace args env) := by
  unfold calibStep calibTrace
  cases h8 : args.int8 with
  | false => simp
  | true =>
      cases hc : env.cacheExists with
      | true => simp [List.append_assoc]
      | false =>
          cases hd : args.calibration_data with
          | none =>
              rcases hreach h8 with h | h
              · rw [hc] at h; exact absurd h (by simp)
              · exact absurd hd h
          | some dir => simp [List.append_assoc]

theorem parseStep_fail (args : Args) (env : Env) (tr : List Event)
    (hp : env.parseOk = false) :
    parseStep args env tr =
      (tr ++ Event.parseOnnx args.onnx ::
          Event.printLine (parseFailMsg args.onnx) ::
          env.parserErrors.map Event.printLine,
        Outcome.exited 1) := by
  unfold parseStep
  simp [hp, List.append_assoc]

theorem parseStep_ok (args : Args) (env : Env) (tr : List Event)
    (hp : env.parseOk = true) :
    parseStep args env tr = markStep args env (tr ++ [Event.parseOnnx args.onnx]) := by
  unfold parseStep
  simp [hp]

theorem markStep_eq (args : Args) (env : Env) (tr : List Event) :
    markStep args env tr =
      profileStep args env
        (tr ++ if env.outputMarked then [] else [Event.markLastLayerOutput]) := by
  unfold markStep
  cases env.outputMarked <;> simp

theorem profileStep_not_explicit (args : Args) (env : Env) (tr : List Event)
    (hx : args.explicit_batch = false) :
    profileStep args env tr =
      (tr ++ [Event.buildEngine, Event.writeEngine args.output], Outcome.finished) := by
  unfold profileStep buildStep
  simp [hx]

theorem profileStep_dynamic (args : Args) (env : Env) (tr : List Event)
    {rest : Shape} {sizes : Finset ℤ} (hx : args.explicit_batch = true)
    (hs : env.inputShape = -1 :: rest)
    (hsz : get_batch_sizes args.max_batch_size = some sizes) :
    profileStep args env tr =
      (tr ++ ((sortedList sizes).map fun b =>
          Event.addProfile env.inputName
            { min := b :: rest, opt := b :: rest, max := b :: rest }) ++
        [Event.buildEngine, Event.writeEngine args.output], Outcome.finished) := by
  unfold profileStep buildStep
  simp [hx, hs, hsz, cop_dynamic_getD, List.append_assoc]

theorem profileStep_fixed (args : Args) (env : Env) (tr : List Event)
    {d : ℤ} {rest : Shape} (hx : args.explicit_batch = true)
    (hs : env.inputShape = d :: rest) (hd : d ≠ -1) :
    profileStep args env tr =
      (tr ++ [Event.addProfile env.inputName
          { min := d :: rest, opt := d :: rest, max := d :: rest },
        Event.buildEngine, Event.writeEngine args.output], Outcome.finished) := by
  unfold profileStep buildStep
  simp [hx, hs, hd, cop_none_getD, List.append_assoc]

theorem setupEvents_classify (args : Args) :
    ∀ e ∈ setupEvents args,
      e.isPrintLine = false ∧ e.isAddProfile = false ∧ e.isBuildEngine = false ∧
      e.isWriteEngine = false ∧ e.isParseOnnx = false ∧
      e.isScanCalibrationDir = false ∧ e ≠ Event.markLastLayerOutput := by
  intro e he
  unfold setupEvents at he
  cases hf : args.fp16 <;> rw [hf] at he <;> simp at he <;>
    rcases he with rfl | rfl | rfl | rfl | rfl | rfl | rfl | rfl <;>
    simp [Event.isPrintLine, Event.isAddProfile, Event.isBuildEngine,
      Event.isWriteEngine, Event.isParseOnnx, Event.isScanCalibrationDir]

theorem calibTrace_classify (args : Args) (env : Env) :
    ∀ e ∈ calibTrace args env,
      e.isPrintLine = false ∧ e.isAddProfile = false ∧ e.isBuildEngine = false ∧
      e.isWriteEngine = false ∧ e.isParseOnnx = false ∧
      e ≠ Event.markLastLayerOutput := by
  intro e he
  unfold calibTrace at he
  cases h8 : args.int8 <;> rw [h8] at he
  · simp at he
  · cases hc : env.cacheExists <;> rw [hc] at he
    · cases hd : args.calibration_data with
      | none =>
          rw [hd] at he
          simp at he
          subst he
          simp [Event.isPrintLine, Event.isAddProfile, Event.isBuildEngine,
            Event.isWriteEngine, Event.isParseOnnx]
      | some dir =>
          rw [hd] at he
          simp at he
          rcases he with rfl | rfl | rfl <;>
            simp [Event.isPrintLine, Event.isAddProfile, Event.isBuildEngine,
              Event.isWriteEngine, Event.isParseOnnx]
    · simp at he
      rcases he with rfl | rfl <;>
        simp [Event.isPrintLine, Event.isAddProfile, Event.isBuildEngine,
          Event.isWriteEngine, Event.isParseOnnx]

theorem calibTrace_cache_noScan (args : Args) (env : Env) (hc : env.cacheExists = true) :
    ∀ e ∈ calibTrace args env, e.isScanCalibrationDir = false := by
  intro e he
  unfold calibTrace at he
  cases h8 : args.int8 <;> rw [h8] at he
  · simp at he
  · rw [hc] at he
    simp at he
    rcases he with rfl | rfl <;> simp [Event.isScanCalibrationDir]

theorem profileStep_suffix (args : Args) (env : Env) (tr : List Event) :
    ∃ suf, (profileStep args env tr).1 = tr ++ suf ∧
      ∀ e ∈ suf, e.isPrintLine = false ∧ e.isParseOnnx = false ∧
        e.isScanCalibrationDir = false ∧ e ≠ Event.markLastLayerOutput := by
  unfold profileStep buildStep
  cases hx : args.explicit_batch with
  | false =>
      refine ⟨[Event.buildEngine, Event.writeEngine args.output], by simp, ?_⟩
      intro e he
      simp at he
      rcases he with rfl | rfl <;>
        simp [Event.isPrintLine, Event.isParseOnnx, Event.isScanCalibrationDir]
  | true =>
      cases hs : env.inputShape with
      | nil => exact ⟨[], by simp, by simp⟩
      | cons d rest =>
          by_cases hd : d = -1
          · subst hd
            cases hsz : get_batch_sizes args.max_batch_size with
            | none => exact ⟨[], by simp [hsz], by simp⟩
            | some sizes =>
                refine ⟨((sortedList sizes).map fun b =>
                    Event.addProfile env.inputName
                      ((create_optimization_profile (-1 :: rest) (some b)).getD default)) ++
                  [Event.buildEngine, Event.writeEngine args.output],
                  by simp [hsz, List.append_assoc], ?_⟩
                intro e he
                simp [List.mem_append, List.mem_map] at he
                rcases he with ⟨b, _, rfl⟩ | rfl | rfl <;>
                  simp [Event.isPrintLine, Event.isParseOnnx, Event.isScanCalibrationDir,
                    cop_dynamic_getD]
          · refine ⟨[Event.addProfile env.inputName
                ((create_optimization_profile (d :: rest) none).getD default),
              Event.buildEngine, Event.writeEngine args.output],
              by simp [hd, List.append_assoc], ?_⟩
            intro e he
            simp at he
            rcases he with rfl | rfl | rfl <;>
              simp [Event.isPrintLine, Event.isParseOnnx, Event.isScanCalibrationDir]

theorem parseStep_suffix (args : Args) (env : Env) (tr : List Event) :
    ∃ suf, (parseStep args env tr).1 = tr ++ suf ∧
      ∀ e ∈ suf, e.isScanCalibrationDir = false ∧
        (e = Event.markLastLayerOutput → env.outputMarked = false) := by
  cases hp : env.parseOk with
  | false =>
      rw [parseStep_fail args env tr hp]
      refine ⟨_, rfl, ?_⟩
      intro e he
      simp at he
      rcases he with rfl | rfl | ⟨s, _, rfl⟩ <;> simp [Event.isScanCalibrationDir]
  | true =>
      rw [parseStep_ok args env tr hp, markStep_eq]
      obtain ⟨suf, hsuf, hprop⟩ := profileStep_suffix args env
        (tr ++ [Event.parseOnnx args.onnx] ++
          (if env.outputMarked then [] else [Event.markLastLayerOutput]))
      refine ⟨[Event.parseOnnx args.onnx] ++
        (if env.outputMarked then [] else [Event.markLastLayerOutput]) ++ suf, ?_, ?_⟩
      · rw [hsuf]
        simp [List.append_assoc]
      · intro e he
        simp only [List.mem_append] at he
        rcases he with (he | he) | he
        · rw [List.mem_singleton] at he
          subst he
          simp [Event.isScanCalibrationDir]
        · cases ho : env.outputMarked <;> rw [ho] at he
          · simp at he
            subst he
            simp [Event.isScanCalibrationDir]
          · simp at he
        · obtain ⟨h1, h2, h3, h4⟩ := hprop e he
          exact ⟨h3, fun _ => by simp_all⟩

theorem profileStep_prefix_mem (args : Args) (env : Env) (tr : List Event)
    (e : Event) (he : e ∈ tr) : e ∈ (profileStep args env tr).1 := by
  obtain ⟨suf, hsuf, _⟩ := profileStep_suffix args env tr
  rw [hsuf, List.mem_append]
  exact Or.inl he

theorem parseStep_prefix_mem (args : Args) (env : Env) (tr : List Event)
    (e : Event) (he : e ∈ tr) : e ∈ (parseStep args env tr).1 := by
  obtain ⟨suf, hsuf, _⟩ := parseStep_suffix args env tr
  rw [hsuf, List.mem_append]
  exact Or.inl he

end OnnxToTensorrt

namespace OnnxToTensorrt

/-- Claim C4 (amended): when INT8 mode is requested, no calibration cache
exists and no calibration data directory is given, the run raises the
fatal configuration `ValueError`, and it does so before the ONNX model is
parsed and before any engine is built or written (though after the
builder/network/config/parser objects are created and the precision flags
are set). -/
theorem int8_error_before_parse_and_build (args : Args) (env : Env)
    (h8 : args.int8 = true) (hc : env.cacheExists = false)
    (hd : args.calibration_data = none) :
    (main args env).2 = Outcome.raised valErrMsg ∧
    ((main args env).1.any fun e =>
      e.isParseOnnx || e.isBuildEngine || e.isWriteEngine) = false := by
  have hm : main args env =
      (setupEvents args ++ [Event.setFlagINT8], Outcome.raised valErrMsg) := by
    simp [main, calibStep, h8, hc, hd]
  rw [hm]
  refine ⟨rfl, ?_⟩
  rw [List.any_eq_false]
  intro e he
  rcases List.mem_append.mp he with h | h
  · obtain ⟨-, -, h3, h4, h5, -, -⟩ := setupEvents_classify args e h
    simp [h3, h4, h5]
  · rw [List.mem_singleton] at h
    subst h
    simp [Event.isParseOnnx, Event.isBuildEngine, Event.isWriteEngine]

/-- Counterexample to claim C4 as stated: in a concrete INT8 run with no
cache and no calibration data, the `ValueError` is indeed raised, but SDK
calls (`trt.Builder(...)` among others) have already happened, so the
error is not raised "before any call into the external SDK". -/
theorem int8_error_not_before_sdk :
    (main int8NoDataArgs int8NoDataEnv).2 = Outcome.raised valErrMsg ∧
    Event.builderCreate ∈ (main int8NoDataArgs int8NoDataEnv).1 ∧
    Event.builderCreate.isSDKCall = true := by decide

/-- Witness for claim C4 (amended) at a concrete configuration. -/
theorem int8_error_before_parse_and_build_witness :
    int8NoDataArgs.int8 = true ∧ int8NoDataEnv.cacheExists = false ∧
    int8NoDataArgs.calibration_data = none ∧
    ((main int8NoDataArgs int8NoDataEnv).2 = Outcome.raised valErrMsg ∧
      ((main int8NoDataArgs int8NoDataEnv).1.any fun e =>
        e.isParseOnnx || e.isBuildEngine || e.isWriteEngine) = false) :=
  ⟨rfl, rfl, rfl,
    int8_error_before_parse_and_build int8NoDataArgs int8NoDataEnv rfl rfl rfl⟩

end OnnxToTensorrt

namespace OnnxToTensorrt

/-- Claim C5 (amended): provided the run reaches the parse step (the INT8
branch does not raise first), a failed parse prints the header plus one
diagnostic line per parser error to stdout and exits with status 1
without building or writing an engine; a successful parse writes the
engine and finishes with status 0, provided the explicit-batch profile
construction does not itself raise (non-empty input shape, and a positive
max batch size when the leading dimension is the wildcard). -/
theorem parse_failure_diagnostics_and_exit (args : Args) (env : Env)
    (hreach : args.int8 = true → env.cacheExists = true ∨ args.calibration_data ≠ none) :
    (env.parseOk = false →
      (main args env).2 = Outcome.exited 1 ∧
      (main args env).1.filter Event.isPrintLine =
        Event.printLine (parseFailMsg args.onnx) ::
          env.parserErrors.map Event.printLine ∧
      ((main args env).1.any fun e => e.isBuildEngine || e.isWriteEngine) = false) ∧
    (env.parseOk = true →
      (args.explicit_batch = true →
        env.inputShape ≠ [] ∧ (env.inputShape.headI = -1 → 0 < args.max_batch_size)) →
      (main args env).2 = Outcome.finished ∧
      Event.writeEngine args.output ∈ (main args env).1) := by
  have hmain : main args env =
      parseStep args env (setupEvents args ++ calibTrace args env) :=
    calibStep_eq args env (setupEvents args) hreach
  constructor
  · intro hp
    rw [hmain, parseStep_fail args env _ hp]
    refine ⟨rfl, ?_, ?_⟩
    · rw [List.filter_append]
      have h1 : (setupEvents args ++ calibTrace args env).filter Event.isPrintLine = [] := by
        rw [List.filter_eq_nil_iff]
        intro e he
        rcases List.mem_append.mp he with h | h
        · simp [(setupEvents_classify args e h).1]
        · simp [(calibTrace_classify args env e h).1]
      rw [h1]
      have hcomp : (Event.isPrintLine ∘ Event.printLine) = fun _ => true := by
        funext s
        simp [Event.isPrintLine, Function.comp]
      simp [Event.isPrintLine, List.filter_map, hcomp]
    · rw [List.any_eq_false]
      intro e he
      rcases List.mem_append.mp he with h | h
      · rcases List.mem_append.mp h with h' | h'
        · obtain ⟨-, -, h3, h4, -, -, -⟩ := setupEvents_classify args e h'
          simp [h3, h4]
        · obtain ⟨-, -, h3, h4, -, -⟩ := calibTrace_classify args env e h'
          simp [h3, h4]
      · simp at h
        rcases h with rfl | rfl | ⟨s, -, rfl⟩ <;>
          simp [Event.isBuildEngine, Event.isWriteEngine]
  · intro hp hguard
    rw [hmain, parseStep_ok args env _ hp, markStep_eq]
    cases hx : args.explicit_batch with
    | false =>
        rw [profileStep_not_explicit args env _ hx]
        exact ⟨rfl, by simp⟩
    | true =>
        obtain ⟨hne, hpos⟩ := hguard hx
        cases hs : env.inputShape with
        | nil => exact absurd hs hne
        | cons d rest =>
            by_cases hd : d = -1
            · subst hd
              have hpos' : 0 < args.max_batch_size := by
                apply hpos
                rw [hs]
                rfl
              obtain ⟨sizes, hsz⟩ : ∃ sizes,
                  get_batch_sizes args.max_batch_size = some sizes :=
                ⟨_, get_batch_sizes_pos hpos'⟩
              rw [profileStep_dynamic args env _ hx hs hsz]
              exact ⟨rfl, by simp⟩
            · rw [profileStep_fixed args env _ hx hs hd]
              exact ⟨rfl, by simp⟩

/-- Counterexample to claim C5 as stated: with `--explicit-batch -b 0` and
a dynamically shaped input, parsing succeeds yet the program raises
(`math.log2(0)` fails) instead of writing the engine and exiting 0. -/
theorem parse_ok_engine_not_written :
    int8NoDataEnv.parseOk = true ∧
    (main zeroBatchArgs int8NoDataEnv).2 = Outcome.raised domainErrMsg ∧
    ((main zeroBatchArgs int8NoDataEnv).1.any Event.isWriteEngine) = false := by decide

/-- Witness for claim C5 (amended) at a concrete failing parse. -/
theorem parse_failure_diagnostics_and_exit_witness :
    (zeroBatchArgs.int8 = true →
      failEnv.cacheExists = true ∨ zeroBatchArgs.calibration_data ≠ none) ∧
    ((failEnv.parseOk = false →
      (main zeroBatchArgs failEnv).2 = Outcome.exited 1 ∧
      (main zeroBatchArgs failEnv).1.filter Event.isPrintLine =
        Event.printLine (parseFailMsg zeroBatchArgs.onnx) ::
          failEnv.parserErrors.map Event.printLine ∧
      ((main zeroBatchArgs failEnv).1.any fun e =>
        e.isBuildEngine || e.isWriteEngine) = false) ∧
    (failEnv.parseOk = true →
      (zeroBatchArgs.explicit_batch = true →
        failEnv.inputShape ≠ [] ∧
        (failEnv.inputShape.headI = -1 → 0 < zeroBatchArgs.max_batch_size)) →
      (main zeroBatchArgs failEnv).2 = Outcome.finished ∧
      Event.writeEngine zeroBatchArgs.output ∈ (main zeroBatchArgs failEnv).1)) :=
  ⟨by decide, parse_failure_diagnostics_and_exit zeroBatchArgs failEnv (by decide)⟩

end OnnxToTensorrt

namespace OnnxToTensorrt

/-- Claim C6: in INT8 mode, when the calibration cache file exists the
calibrator is installed with an empty file list and the calibration-data
directory is never scanned; the directory is scanned (with the
max-calibration-size cap passed along) only when no cache exists and a
directory was given. -/
theorem calibration_cache_skips_scan (args : Args) (env : Env) (h8 : args.int8 = true) :
    (env.cacheExists = true →
      Event.setInt8Calibrator [] args.calibration_batch_size args.calibration_cache
        (preprocessName args) ∈ (main args env).1 ∧
      ((main args env).1.any Event.isScanCalibrationDir) = false) ∧
    (env.cacheExists = false → ∀ dir : String, args.calibration_data = some dir →
      Event.scanCalibrationDir dir args.max_calibration_size ∈ (main args env).1) := by
  constructor
  · intro hc
    have hmain : main args env =
        parseStep args env (setupEvents args ++ calibTrace args env) :=
      calibStep_eq args env (setupEvents args) fun _ => Or.inl hc
    constructor
    · rw [hmain]
      apply parseStep_prefix_mem
      rw [List.mem_append]
      right
      unfold calibTrace
      rw [h8, hc]
      simp
    · rw [hmain]
      obtain ⟨suf, hsuf, hprop⟩ :=
        parseStep_suffix args env (setupEvents args ++ calibTrace args env)
      rw [hsuf, List.any_eq_false]
      intro e he
      rcases List.mem_append.mp he with h | h
      · rcases List.mem_append.mp h with h' | h'
        · simp [(setupEvents_classify args e h').2.2.2.2.2.1]
        · simp [calibTrace_cache_noScan args env hc e h']
      · simp [(hprop e h).1]
  · intro hc dir hdir
    have hmain : main args env =
        parseStep args env (setupEvents args ++ calibTrace args env) :=
      calibStep_eq args env (setupEvents args) fun _ => Or.inr (by simp [hdir])
    rw [hmain]
    apply parseStep_prefix_mem
    rw [List.mem_append]
    right
    unfold calibTrace
    rw [h8, hc, hdir]
    simp

/-- Witness for claim C6 at a concrete INT8 run with an existing cache. -/
theorem calibration_cache_skips_scan_witness :
    int8NoDataArgs.int8 = true ∧
    ((cacheEnv.cacheExists = true →
      Event.setInt8Calibrator [] int8NoDataArgs.calibration_batch_size
        int8NoDataArgs.calibration_cache (preprocessName int8NoDataArgs) ∈
          (main int8NoDataArgs cacheEnv).1 ∧
      ((main int8NoDataArgs cacheEnv).1.any Event.isScanCalibrationDir) = false) ∧
    (cacheEnv.cacheExists = false → ∀ dir : String,
      int8NoDataArgs.calibration_data = some dir →
      Event.scanCalibrationDir dir int8NoDataArgs.max_calibration_size ∈
        (main int8NoDataArgs cacheEnv).1)) :=
  ⟨rfl, calibration_cache_skips_scan int8NoDataArgs cacheEnv rfl⟩

end OnnxToTensorrt

namespace OnnxToTensorrt

/-- Claim C7: in explicit-batch mode after a successful parse, a wildcard
leading dimension yields exactly one registered optimization profile per
element of `get_batch_sizes(max_batch_size)`, in ascending batch-size
order, while a fixed leading dimension yields exactly one profile. -/
theorem explicit_batch_profile_registration (args : Args) (env : Env)
    (hx : args.explicit_batch = true) (hp : env.parseOk = true)
    (hreach : args.int8 = true → env.cacheExists = true ∨ args.calibration_data ≠ none) :
    (∀ rest : Shape, env.inputShape = -1 :: rest → 0 < args.max_batch_size →
      ∃ sizes, get_batch_sizes args.max_batch_size = some sizes ∧
        (main args env).1.filter Event.isAddProfile =
          (sortedList sizes).map (fun b =>
            Event.addProfile env.inputName
              { min := b :: rest, opt := b :: rest, max := b :: rest }) ∧
        List.Pairwise (· < ·) (sortedList sizes) ∧
        (∀ b : ℤ, b ∈ sortedList sizes ↔ b ∈ sizes)) ∧
    (∀ (d : ℤ) (rest : Shape), env.inputShape = d :: rest → d ≠ -1 →
      (main args env).1.filter Event.isAddProfile =
        [Event.addProfile env.inputName
          { min := d :: rest, opt := d :: rest, max := d :: rest }]) := by
  have hmain : main args env =
      parseStep args env (setupEvents args ++ calibTrace args env) :=
    calibStep_eq args env (setupEvents args) hreach
  have hnil : (setupEvents args ++ calibTrace args env ++ [Event.parseOnnx args.onnx] ++
      (if env.outputMarked then [] else [Event.markLastLayerOutput])).filter
        Event.isAddProfile = [] := by
    rw [List.filter_eq_nil_iff]
    intro e he
    simp only [List.mem_append] at he
    rcases he with ((h | h) | h) | h
    · simp [(setupEvents_classify args e h).2.1]
    · simp [(calibTrace_classify args env e h).2.1]
    · rw [List.mem_singleton] at h
      subst h
      simp [Event.isAddProfile]
    · cases ho : env.outputMarked <;> rw [ho] at h
      · simp at h
        subst h
        simp [Event.isAddProfile]
      · simp at h
  constructor
  · intro rest hs hpos
    obtain ⟨sizes, hsz⟩ : ∃ sizes, get_batch_sizes args.max_batch_size = some sizes :=
      ⟨_, get_batch_sizes_pos hpos⟩
    refine ⟨sizes, hsz, ?_, sortedList_pairwise_lt sizes, fun b => mem_sortedList⟩
    rw [hmain, parseStep_ok args env _ hp, markStep_eq,
      profileStep_dynamic args env _ hx hs hsz]
    rw [List.filter_append, List.filter_append, hnil]
    rw [List.filter_eq_self.mpr ?_, List.filter_eq_nil_iff.mpr ?_]
    · simp
    · intro e he
      simp at he
      rcases he with rfl | rfl <;> simp [Event.isAddProfile]
    · intro e he
      rcases List.mem_map.mp he with ⟨b, -, rfl⟩
      simp [Event.isAddProfile]
  · intro d rest hs hd
    rw [hmain, parseStep_ok args env _ hp, markStep_eq,
      profileStep_fixed args env _ hx hs hd]
    rw [List.filter_append, hnil]
    simp [Event.isAddProfile]

/-- Witness for claim C7 at a concrete dynamic-shape run with max batch
size 20. -/
theorem explicit_batch_profile_registration_witness :
    dynProfileArgs.explicit_batch = true ∧ int8NoDataEnv.parseOk = true ∧
    (dynProfileArgs.int8 = true →
      int8NoDataEnv.cacheExists = true ∨ dynProfileArgs.calibration_data ≠ none) ∧
    ((∀ rest : Shape, int8NoDataEnv.inputShape = -1 :: rest →
      0 < dynProfileArgs.max_batch_size →
      ∃ sizes, get_batch_sizes dynProfileArgs.max_batch_size = some sizes ∧
        (main dynProfileArgs int8NoDataEnv).1.filter Event.isAddProfile =
          (sortedList sizes).map (fun b =>
            Event.addProfile int8NoDataEnv.inputName
              { min := b :: rest, opt := b :: rest, max := b :: rest }) ∧
        List.Pairwise (· < ·) (sortedList sizes) ∧
        (∀ b : ℤ, b ∈ sortedList sizes ↔ b ∈ sizes)) ∧
    (∀ (d : ℤ) (rest : Shape), int8NoDataEnv.inputShape = d :: rest → d ≠ -1 →
      (main dynProfileArgs int8NoDataEnv).1.filter Event.isAddProfile =
        [Event.addProfile int8NoDataEnv.inputName
          { min := d :: rest, opt := d :: rest, max := d :: rest }])) :=
  ⟨rfl, rfl, by decide,
    explicit_batch_profile_registration dynProfileArgs int8NoDataEnv rfl rfl (by decide)⟩

end OnnxToTensorrt

namespace OnnxToTensorrt

/-- Claim C8: after a successful parse, the last layer's first output is
marked as the network output exactly when no output was already marked. -/
theorem mark_last_layer_when_no_output (args : Args) (env : Env)
    (hp : env.parseOk = true)
    (hreach : args.int8 = true → env.cacheExists = true ∨ args.calibration_data ≠ none) :
    (env.outputMarked = false → Event.markLastLayerOutput ∈ (main args env).1) ∧
    (env.outputMarked = true → Event.markLastLayerOutput ∉ (main args env).1) := by
  have hmain : main args env =
      parseStep args env (setupEvents args ++ calibTrace args env) :=
    calibStep_eq args env (setupEvents args) hreach
  constructor
  · intro ho
    rw [hmain, parseStep_ok args env _ hp, markStep_eq]
    apply profileStep_prefix_mem
    simp [ho]
  · intro ho hmem
    rw [hmain] at hmem
    obtain ⟨suf, hsuf, hprop⟩ :=
      parseStep_suffix args env (setupEvents args ++ calibTrace args env)
    rw [hsuf] at hmem
    rcases List.mem_append.mp hmem with h | h
    · rcases List.mem_append.mp h with h' | h'
      · exact (setupEvents_classify args _ h').2.2.2.2.2.2 rfl
      · exact (calibTrace_classify args env _ h').2.2.2.2.2 rfl
    · have hfalse := (hprop _ h).2 rfl
      rw [ho] at hfalse
      cases hfalse

/-- Witness for claim C8 at a concrete run whose network output is
already marked. -/
theorem mark_last_layer_when_no_output_witness :
    int8NoDataEnv.parseOk = true ∧
    (dynProfileArgs.int8 = true →
      int8NoDataEnv.cacheExists = true ∨ dynProfileArgs.calibration_data ≠ none) ∧
    ((int8NoDataEnv.outputMarked = false →
      Event.markLastLayerOutput ∈ (main dynProfileArgs int8NoDataEnv).1) ∧
    (int8NoDataEnv.outputMarked = true →
      Event.markLastLayerOutput ∉ (main dynProfileArgs int8NoDataEnv).1)) :=
  ⟨rfl, by decide,
    mark_last_layer_when_no_output dynProfileArgs int8NoDataEnv rfl (by decide)⟩

end OnnxToTensorrt

namespace OnnxToTensorrt

/-- Claim C1: for every positive maximum batch size `n`, `get_batch_sizes n`
returns exactly the powers of two from 1 up to the largest power of two not
exceeding `n`, together with `n` itself; in particular
`get_batch_sizes 32 = {1, 2, 4, 8, 16, 32}` and
`get_batch_sizes 20 = {1, 2, 4, 8, 16, 20}`. -/
theorem get_batch_sizes_meets_spec (n : ℤ) (h : 0 < n) :
    (∃ s, get_batch_sizes n = some s ∧
      ∀ m : ℤ, m ∈ s ↔ (∃ i : ℕ, m = 2 ^ i ∧ m ≤ n) ∨ m = n) ∧
    get_batch_sizes 32 = some {1, 2, 4, 8, 16, 32} ∧
    get_batch_sizes 20 = some {1, 2, 4, 8, 16, 20} := by
  refine ⟨⟨_, get_batch_sizes_pos h, fun m => mem_get_batch_sizes h⟩, ?_, ?_⟩
  · rw [show get_batch_sizes 32 =
        some (insert 32 ((Finset.range (floorLog2 (Int.toNat 32) + 1)).image
          fun i => (2 : ℤ) ^ i)) from rfl]
    exact congrArg some (by decide)
  · rw [show get_batch_sizes 20 =
        some (insert 20 ((Finset.range (floorLog2 (Int.toNat 20) + 1)).image
          fun i => (2 : ℤ) ^ i)) from rfl]
    exact congrArg some (by decide)

/-- Witness for claim C1 at the concrete input 7. -/
theorem get_batch_sizes_meets_spec_witness :
    (0 : ℤ) < 7 ∧
    ((∃ s, get_batch_sizes 7 = some s ∧
      ∀ m : ℤ, m ∈ s ↔ (∃ i : ℕ, m = 2 ^ i ∧ m ≤ 7) ∨ m = 7) ∧
    get_batch_sizes 32 = some {1, 2, 4, 8, 16, 32} ∧
    get_batch_sizes 20 = some {1, 2, 4, 8, 16, 20}) :=
  ⟨by decide, get_batch_sizes_meets_spec 7 (by decide)⟩

/-- Claim C2: with a wildcard leading dimension and an explicit batch size
`b`, `create_optimization_profile` registers min = opt = max = `b :: rest`;
in particular shape `(-1, 3, 224, 224)` with batch size 8 gives
`(8, 3, 224, 224)` for all three bounds. -/
theorem create_optimization_profile_dynamic :
    (∀ (rest : Shape) (b : ℤ),
      create_optimization_profile (-1 :: rest) (some b) =
        some { min := b :: rest, opt := b :: rest, max := b :: rest }) ∧
    create_optimization_profile [-1, 3, 224, 224] (some 8) =
      some { min := [8, 3, 224, 224], opt := [8, 3, 224, 224],
             max := [8, 3, 224, 224] } := by
  refine ⟨fun rest b => ?_, by decide⟩
  simp [create_optimization_profile]

/-- Claim C3: with a fixed (non-wildcard) leading dimension and no
batch-size override, `create_optimization_profile` registers
min = opt = max = the input shape itself; in particular shape
`(4, 3, 224, 224)` gives `(4, 3, 224, 224)` for all three bounds. -/
theorem create_optimization_profile_fixed (d : ℤ) (rest : Shape) (h : d ≠ -1) :
    create_optimization_profile (d :: rest) none =
      some { min := d :: rest, opt := d :: rest, max := d :: rest } ∧
    create_optimization_profile [4, 3, 224, 224] none =
      some { min := [4, 3, 224, 224], opt := [4, 3, 224, 224],
             max := [4, 3, 224, 224] } :=
  ⟨rfl, by decide⟩

/-- Witness for claim C3 at the concrete shape `(4, 3, 224, 224)`. -/
theorem create_optimization_profile_fixed_witness :
    (4 : ℤ) ≠ -1 ∧
    (create_optimization_profile ((4 : ℤ) :: [3, 224, 224]) none =
        some { min := (4 : ℤ) :: [3, 224, 224], opt := (4 : ℤ) :: [3, 224, 224],
               max := (4 : ℤ) :: [3, 224, 224] } ∧
      create_optimization_profile [4, 3, 224, 224] none =
        some { min := [4, 3, 224, 224], opt := [4, 3, 224, 224],
               max := [4, 3, 224, 224] }) :=
  ⟨by decide, create_optimization_profile_fixed 4 [3, 224, 224] (by decide)⟩

/-- Claim C9: `get_batch_sizes` raises (`none`) exactly on non-positive
maximum batch sizes, so the raise is unreachable only under the
precondition `max_batch_size ≥ 1`. -/
theorem get_batch_sizes_requires_positive :
    (∀ n : ℤ, n ≤ 0 → get_batch_sizes n = none) ∧
    (∀ n : ℤ, 0 < n → (get_batch_sizes n).isSome = true) :=
  ⟨fun _ h => get_batch_sizes_neg h, fun _ h => by rw [get_batch_sizes_pos h]; rfl⟩

/-- Witness for claim C9 at the concrete inputs 0, -4 and 6. -/
theorem get_batch_sizes_requires_positive_witness :
    get_batch_sizes 0 = none ∧ get_batch_sizes (-4) = none ∧
    (get_batch_sizes 6).isSome = true :=
  ⟨get_batch_sizes_requires_positive.1 0 (by decide),
   get_batch_sizes_requires_positive.1 (-4) (by decide),
   get_batch_sizes_requires_positive.2 6 (by decide)⟩

/-- Claim C10: for every `max_batch_size ≥ 1` the returned set contains 1
and `max_batch_size` itself, and every element is positive. -/
theorem get_batch_sizes_invariants (n : ℤ) (h : 0 < n) :
    ∃ s, get_batch_sizes n = some s ∧ 1 ∈ s ∧ n ∈ s ∧ ∀ m ∈ s, 0 < m := by
  refine ⟨_, get_batch_sizes_pos h, ?_, ?_, ?_⟩
  · exact (mem_get_batch_sizes h).mpr (Or.inl ⟨0, by norm_num, by omega⟩)
  · exact (mem_get_batch_sizes h).mpr (Or.inr rfl)
  · intro m hm
    rcases (mem_get_batch_sizes h).mp hm with ⟨i, rfl, _⟩ | rfl
    · positivity
    · exact h

/-- Witness for claim C10 at the concrete input 12. -/
theorem get_batch_sizes_invariants_witness :
    (0 : ℤ) < 12 ∧
    (∃ s, get_batch_sizes 12 = some s ∧ 1 ∈ s ∧ 12 ∈ s ∧ ∀ m ∈ s, 0 < m) :=
  ⟨by decide, get_batch_sizes_invariants 12 (by decide)⟩

end OnnxToTensorrt
